import Mathlib

/-!
Verification of the lease-lock protocol of the ddb-locking-read repository.

The source implements pessimistic locking over a single DynamoDB record:

* `acquireLockAndRead` issues a conditional update with predicate
  `attribute_not_exists(lockTime) OR lockTime < :now`, mutation
  `SET lockTime = :lockExpiration, lockedBy = :processId`, returning the full
  post-update record (`ReturnValues: ALL_NEW`) on success and the pre-existing
  record (`ReturnValuesOnConditionCheckFailure: ALL_OLD`) inside a `LockError`
  on predicate failure.
* `updateAndReleaseLock` issues a conditional update with predicate
  `lockedBy = :processId AND lockTime > :now`, mutation
  `SET currentHash = :currentHash, lastUpdated = :lastUpdated
   REMOVE lockTime, lockedBy`, again surfacing the pre-existing record in a
  `LockError` on predicate failure.
* `generateNextHash` applies the SHA-256 digest `workFactor` times (default
  50000); the hash function itself is opaque here and is a parameter `H`.
* `extendHashChain` is the retry executor: a `for` loop over
  `attempt = 1 .. maxRetries` that acquires, runs the critical section
  (`iterations` applications of `generateNextHash`), releases, and on any
  `LockError` sleeps a random backoff and retries while `attempt < maxRetries`,
  rethrowing the error on the final attempt.

The store state is a single record; machine integers of the source are modelled
as `Nat` (Unix seconds fit far below any overflow boundary and the source does
no wrapping arithmetic). The diagnostic logger has no effect on control flow
and is omitted.
-/

namespace DdbLockingRead

/-- The record schema of the `Inventory` table (interface `HashChainItem` in
the source): `lockTime` and `lockedBy` are optional attributes, absent when no
lock is outstanding. -/
structure HashChainItem where
  id : String
  currentHash : String
  lastUpdated : Nat
  lockTime : Option Nat
  lockedBy : Option String
deriving Repr, DecidableEq

/-- The `LockError` thrown by both store operations on a conditional-check
failure. The source also carries a human-readable message string (with an ISO
date rendering); only the structured `currentState` payload is modelled. -/
structure LockError where
  currentState : Option HashChainItem
deriving Repr, DecidableEq

/-- The acquire predicate `attribute_not_exists(lockTime) OR lockTime < :now`
of `acquireLockAndRead`. -/
def acquireCondition (item : HashChainItem) (now : Nat) : Bool :=
  match item.lockTime with
  | none => true
  | some t => decide (t < now)

/-- `acquireLockAndRead` from the source: conditional update setting
`lockTime := now + lockDuration` and `lockedBy := processId` under
`acquireCondition`; `ALL_NEW` on success, `LockError` with the `ALL_OLD`
record on failure. The source's default `lockDuration` is 30 seconds. -/
def acquireLockAndRead (item : HashChainItem) (processId : String)
    (now : Nat) (lockDuration : Nat) : Except LockError HashChainItem :=
  if acquireCondition item now then
    .ok { item with lockTime := some (now + lockDuration),
                    lockedBy := some processId }
  else
    .error ⟨some item⟩

/-- The release predicate `lockedBy = :processId AND lockTime > :now` of
`updateAndReleaseLock`; a comparison against an absent attribute is false in
DynamoDB, hence the `none` branches. -/
def releaseCondition (item : HashChainItem) (processId : String) (now : Nat) : Bool :=
  match item.lockedBy, item.lockTime with
  | some holder, some t => decide (holder = processId) && decide (now < t)
  | _, _ => false

/-- `updateAndReleaseLock` from the source: conditional update setting
`currentHash := updateData.currentHash` and `lastUpdated := now` and removing
`lockTime` and `lockedBy` under `releaseCondition`; `LockError` with the
`ALL_OLD` record on failure. Only `updateData.currentHash` is read from the
caller-supplied record. -/
def updateAndReleaseLock (item : HashChainItem) (processId : String)
    (updateData : HashChainItem) (now : Nat) : Except LockError HashChainItem :=
  if releaseCondition item processId now then
    .ok { item with currentHash := updateData.currentHash, lastUpdated := now,
                    lockTime := none, lockedBy := none }
  else
    .error ⟨some item⟩

/-- The `for (let i = 0; i < workFactor; i++) hash = H(hash)` loop body of
`generateNextHash`, over an opaque digest function `H`. -/
def hashRounds (H : String → String) : Nat → String → String
  | 0, hash => hash
  | n + 1, hash => hashRounds H n (H hash)

/-- `generateNextHash` from the source (the source's default `workFactor` is
50000). -/
def generateNextHash (H : String → String) (currentHash : String)
    (workFactor : Nat) : String :=
  hashRounds H workFactor currentHash

/-- The `for (let i = 0; i < iterations; i++) nextHash = generateNextHash(nextHash)`
loop of `extendHashChain`, which always uses the default work factor 50000. -/
def chainHashes (H : String → String) : Nat → String → String
  | 0, hash => hash
  | n + 1, hash => chainHashes H n (generateNextHash H hash 50000)

/-- The environment of one executor run: the record state and clock reading the
store presents to each numbered attempt. `acqStateAt k` / `acqTimeAt k` are what
attempt `k`'s acquire call observes, `updTimeAt k` is the `Date.now()` reading
taken when building `updatedItem`, and `relStateAt k` / `relTimeAt k` are what
attempt `k`'s release call observes (other processes may have changed the
record between the two calls, so the release state is independent). -/
structure Env where
  acqStateAt : Nat → HashChainItem
  acqTimeAt : Nat → Nat
  updTimeAt : Nat → Nat
  relStateAt : Nat → HashChainItem
  relTimeAt : Nat → Nat

instance : DecidableEq (Except LockError Unit) := fun a b =>
  match a, b with
  | .ok _, .ok _ => .isTrue rfl
  | .error e₁, .error e₂ =>
    if h : e₁ = e₂ then .isTrue (by rw [h]) else .isFalse (by intro hh; cases hh; exact h rfl)
  | .ok _, .error _ => .isFalse (by intro h; cases h)
  | .error _, .ok _ => .isFalse (by intro h; cases h)

/-- Observable outcome of one `extendHashChain` run: the returned/thrown value,
the number of acquire attempts issued, of backoff sleeps performed, of critical
section executions, and of release calls that failed with `LockError`. -/
structure RunResult where
  result : Except LockError Unit
  attempts : Nat
  sleeps : Nat
  criticalRuns : Nat
  releaseFailures : Nat
deriving Repr, DecidableEq

/-- Accounting for `continue`-after-backoff when the acquire call threw
`LockError` (the `catch` block of `extendHashChain` with `attempt < maxRetries`). -/
def afterContention (r : RunResult) : RunResult :=
  ⟨r.result, r.attempts + 1, r.sleeps + 1, r.criticalRuns, r.releaseFailures⟩

/-- Accounting for `continue`-after-backoff when the release call threw
`LockError`: the same `catch` block runs, but the critical section had already
executed once on this attempt. -/
def afterLostLock (r : RunResult) : RunResult :=
  ⟨r.result, r.attempts + 1, r.sleeps + 1, r.criticalRuns + 1, r.releaseFailures + 1⟩

/-- The `for (let attempt = 1; attempt <= maxRetries; attempt++)` loop of
`extendHashChain`. `fuel` is the number of loop iterations still permitted
(`maxRetries - attempt + 1` at every call site), which makes termination
structural. The body: acquire (lock duration 30, the source default), run the
critical section, release; any `LockError` is caught and, while
`attempt < maxRetries`, answered with a backoff sleep and a retry, otherwise
rethrown. -/
def runLoopAux (H : String → String) (env : Env) (processId : String)
    (iterations maxRetries : Nat) : Nat → Nat → RunResult
  | _, 0 => ⟨.ok (), 0, 0, 0, 0⟩
  | attempt, fuel + 1 =>
    match acquireLockAndRead (env.acqStateAt attempt) processId
        (env.acqTimeAt attempt) 30 with
    | .ok item =>
      let nextHash := chainHashes H iterations item.currentHash
      let updatedItem : HashChainItem :=
        { item with currentHash := nextHash, lastUpdated := env.updTimeAt attempt }
      match updateAndReleaseLock (env.relStateAt attempt) processId updatedItem
          (env.relTimeAt attempt) with
      | .ok _ => ⟨.ok (), 1, 0, 1, 0⟩
      | .error e =>
        if attempt < maxRetries then
          afterLostLock (runLoopAux H env processId iterations maxRetries (attempt + 1) fuel)
        else ⟨.error e, 1, 0, 1, 1⟩
    | .error e =>
      if attempt < maxRetries then
        afterContention (runLoopAux H env processId iterations maxRetries (attempt + 1) fuel)
      else ⟨.error e, 1, 0, 0, 0⟩

/-- `extendHashChain` from the source (the source's default `maxRetries` is 10):
the retry loop started at `attempt = 1`. -/
def extendHashChain (H : String → String) (env : Env) (processId : String)
    (iterations maxRetries : Nat) : RunResult :=
  runLoopAux H env processId iterations maxRetries 1 maxRetries

/-- A store operation on the shared record, tagged with the wall-clock reading
(in whole seconds) at which the store evaluates it. -/
inductive Event where
  | acquire (processId : String) (lockDuration : Nat) (now : Nat)
  | release (processId : String) (updateData : HashChainItem) (now : Nat)
deriving Repr, DecidableEq

/-- The clock reading at which the store serializes the event. -/
def Event.now : Event → Nat
  | .acquire _ _ n => n
  | .release _ _ n => n

/-- The process issuing the event. -/
def Event.processId : Event → String
  | .acquire p _ _ => p
  | .release p _ _ => p

/-- One serialized conditional update on the record: the new record state and
whether the condition held (on failure DynamoDB leaves the record unchanged). -/
def applyEvent (s : HashChainItem) : Event → HashChainItem × Bool
  | .acquire p d n =>
    match acquireLockAndRead s p n d with
    | .ok s2 => (s2, true)
    | .error _ => (s, false)
  | .release p u n =>
    match updateAndReleaseLock s p u n with
    | .ok s2 => (s2, true)
    | .error _ => (s, false)

/-- The record state after the store has serialized a list of events. -/
def runTrace (s : HashChainItem) : List Event → HashChainItem
  | [] => s
  | e :: es => runTrace (applyEvent s e).1 es

/-- The record state just before event `n` of the trace is evaluated. -/
def stateAt (s0 : HashChainItem) (evs : List Event) (n : Nat) : HashChainItem :=
  runTrace s0 (evs.take n)

/-- Whether event `n` of the trace passed its condition expression. -/
def succAt (s0 : HashChainItem) (evs : List Event) (n : Nat) : Bool :=
  match evs[n]? with
  | some e => (applyEvent (stateAt s0 evs n) e).2
  | none => false

/-- The record-schema invariant: the two lock attributes are present or absent
together. -/
def lockFieldsConsistent (s : HashChainItem) : Prop :=
  s.lockTime = none ↔ s.lockedBy = none

/-- A record with no outstanding lock, as created by the provisioning script. -/
def freeItem : HashChainItem :=
  ⟨"HASH-CHAIN-1", "h0", 0, none, none⟩

/-- A record whose lease expires exactly at the instant 100. -/
def boundaryLockedItem : HashChainItem :=
  ⟨"HASH-CHAIN-1", "h0", 0, some 100, some "q"⟩

/-- A record locked by process p until instant 130. -/
def heldItem : HashChainItem :=
  ⟨"HASH-CHAIN-1", "h0", 0, some 130, some "p"⟩

/-- A record reclaimed by process q until instant 200. -/
def stolenItem : HashChainItem :=
  ⟨"HASH-CHAIN-1", "h0", 0, some 200, some "q"⟩

/-- A record locked far into the future by process q. -/
def lockedFarItem : HashChainItem :=
  ⟨"HASH-CHAIN-1", "h0", 0, some 999999, some "q"⟩

/-- A caller-built update record: new hash plus stale bookkeeping fields. -/
def updA : HashChainItem :=
  ⟨"HASH-CHAIN-1", "h9", 101, some 999, some "zzz"⟩

/-- A second update record agreeing with `updA` only on `currentHash`. -/
def updB : HashChainItem :=
  ⟨"other", "h9", 777, none, none⟩

/-- A serialized four-event trace: two back-to-back successful
acquire/release cycles by distinct holders. -/
def trace6 : List Event :=
  [.acquire "p" 30 100, .release "p" updA 110, .acquire "q" 30 110,
   .release "q" updB 115]

/-- Environment in which every acquire attempt finds the record free, the
first release call finds the lock stolen by q, and the second finds it still
held by p. -/
def cexEnv : Env where
  acqStateAt := fun _ => freeItem
  acqTimeAt := fun _ => 100
  updTimeAt := fun _ => 101
  relStateAt := fun n => if n = 1 then stolenItem else heldItem
  relTimeAt := fun _ => 105

/-- Environment in which the record is permanently locked far into the future
by another process, so every acquire attempt is contended. -/
def exhEnv : Env where
  acqStateAt := fun _ => lockedFarItem
  acqTimeAt := fun _ => 100
  updTimeAt := fun _ => 100
  relStateAt := fun _ => lockedFarItem
  relTimeAt := fun _ => 100

/-! ## Theorems -/

/-- Unfolding lemma: a successful acquire application. -/
theorem applyEvent_acquire_snd (s : HashChainItem) (p : String) (d n : Nat) :
    (applyEvent s (.acquire p d n)).2 = acquireCondition s n := by
  by_cases hc : acquireCondition s n = true
  · simp [applyEvent, acquireLockAndRead, hc]
  · rw [Bool.not_eq_true] at hc
    simp [applyEvent, acquireLockAndRead, hc]

/-- Unfolding lemma: a release application's success bit is the release
predicate. -/
theorem applyEvent_release_snd (s : HashChainItem) (p : String)
    (u : HashChainItem) (n : Nat) :
    (applyEvent s (.release p u n)).2 = releaseCondition s p n := by
  by_cases hc : releaseCondition s p n = true
  · simp [applyEvent, updateAndReleaseLock, hc]
  · rw [Bool.not_eq_true] at hc
    simp [applyEvent, updateAndReleaseLock, hc]

/-- Characterization of the acquire predicate. -/
theorem acquireCondition_spec {s : HashChainItem} {n : Nat}
    (h : acquireCondition s n = true) :
    s.lockTime = none ∨ ∃ t, s.lockTime = some t ∧ t < n := by
  obtain ⟨i, c, lu, lt, lb⟩ := s
  cases lt <;> simp_all [acquireCondition]

/-- Characterization of the release predicate. -/
theorem releaseCondition_spec {s : HashChainItem} {p : String} {n : Nat}
    (h : releaseCondition s p n = true) :
    s.lockedBy = some p ∧ ∃ t, s.lockTime = some t ∧ n < t := by
  obtain ⟨i, c, lu, lt, lb⟩ := s
  cases lb <;> cases lt <;> simp_all [releaseCondition]

/-- C2: acquire succeeds exactly when the lease-expiry attribute is absent or
strictly below the current clock; on success it writes holder and expiry and
returns the full post-update record (payload included), and on predicate
failure it surfaces the pre-existing record (holder and expiry) inside the
error instead of a bare failure. -/
theorem C2_acquire_semantics (s : HashChainItem) (p : String) (now D : Nat) :
    (acquireCondition s now = true ↔
      s.lockTime = none ∨ ∃ t, s.lockTime = some t ∧ t < now) ∧
    (acquireCondition s now = true →
      acquireLockAndRead s p now D =
        .ok { s with lockTime := some (now + D), lockedBy := some p }) ∧
    (acquireCondition s now = false →
      acquireLockAndRead s p now D = .error ⟨some s⟩) := by
  refine ⟨⟨acquireCondition_spec, ?_⟩, ?_, ?_⟩
  · intro h
    obtain ⟨i, c, lu, lt, lb⟩ := s
    cases lt <;> simp_all [acquireCondition]
  · intro h; simp [acquireLockAndRead, h]
  · intro h; simp [acquireLockAndRead, h]

/-- C2 witness: acquiring the initial, lock-free record at clock 100 with the
default 30-second duration succeeds and returns the stamped record. -/
theorem C2_acquire_semantics_witness :
    acquireLockAndRead freeItem "p" 100 30 =
      .ok ⟨"HASH-CHAIN-1", "h0", 0, some 130, some "p"⟩ :=
  (C2_acquire_semantics freeItem "p" 100 30).2.1 (by decide)

/-- C3: release succeeds exactly when the record's holder equals the caller
and the lease expiry is strictly in the future; on success it writes the new
payload, stamps `lastUpdated`, and clears both lock attributes in the same
atomic step; on predicate failure the store raises the error with the
pre-existing record and the record itself is unchanged. -/
theorem C3_release_semantics (s : HashChainItem) (p : String)
    (u : HashChainItem) (now : Nat) :
    (releaseCondition s p now = true ↔
      s.lockedBy = some p ∧ ∃ t, s.lockTime = some t ∧ now < t) ∧
    (releaseCondition s p now = true →
      updateAndReleaseLock s p u now =
        .ok ⟨s.id, u.currentHash, now, none, none⟩) ∧
    (releaseCondition s p now = false →
      updateAndReleaseLock s p u now = .error ⟨some s⟩ ∧
      (applyEvent s (.release p u now)).1 = s) := by
  refine ⟨⟨releaseCondition_spec, ?_⟩, ?_, ?_⟩
  · intro h
    obtain ⟨i, c, lu, lt, lb⟩ := s
    cases lb <;> cases lt <;> simp_all [releaseCondition]
  · intro h; simp [updateAndReleaseLock, h]
  · intro h; simp [applyEvent, updateAndReleaseLock, h]

/-- C3 witness: the holder releases before expiry; the payload is written, the
clock stamped, and both lock attributes removed. -/
theorem C3_release_semantics_witness :
    updateAndReleaseLock heldItem "p" updA 105 =
      .ok ⟨"HASH-CHAIN-1", "h9", 105, none, none⟩ :=
  (C3_release_semantics heldItem "p" updA 105).2.1 (by decide)

/-- C4 counterexample: at the boundary instant `lockTime = now = 100` the
acquire predicate `lockTime < now` is false, so the acquire is rejected,
whereas the same acquire on a record with no lock attributes succeeds — an
expired-at-this-instant lease is NOT indistinguishable from no lease. -/
theorem C4_counterexample :
    acquireLockAndRead boundaryLockedItem "p" 100 30 =
      .error ⟨some boundaryLockedItem⟩ ∧
    acquireLockAndRead freeItem "p" 100 30 =
      .ok ⟨"HASH-CHAIN-1", "h0", 0, some 130, some "p"⟩ :=
  ⟨rfl, rfl⟩

/-- C4 amended: a record whose lease expiry is STRICTLY below the clock is
treated by acquire exactly like a record with no lease attributes (same
success, same post-update record); at the boundary instant
`leaseExpiry = now` the acquire still fails. -/
theorem C4_amended_strict_expiry (s : HashChainItem) (p : String)
    (now D t : Nat) (h : s.lockTime = some t) :
    (t < now → acquireLockAndRead s p now D =
      acquireLockAndRead { s with lockTime := none, lockedBy := none } p now D) ∧
    (t = now → acquireLockAndRead s p now D = .error ⟨some s⟩) := by
  constructor
  · intro ht
    simp [acquireLockAndRead, acquireCondition, h, ht]
  · intro ht
    subst ht
    simp [acquireLockAndRead, acquireCondition, h]

/-- C4 amended witness: a lease expired at 99 behaves like no lease at clock
200. -/
theorem C4_amended_strict_expiry_witness :
    acquireLockAndRead ⟨"HASH-CHAIN-1", "h0", 0, some 99, some "q"⟩ "p" 200 30 =
      acquireLockAndRead ⟨"HASH-CHAIN-1", "h0", 0, none, none⟩ "p" 200 30 :=
  (C4_amended_strict_expiry ⟨"HASH-CHAIN-1", "h0", 0, some 99, some "q"⟩
    "p" 200 30 99 rfl).1 (by decide)

/-- C10: a successful release writes only the `currentHash` taken from the
caller-supplied update record plus the store-side clock reading for
`lastUpdated`; every other field of the supplied record (its `lastUpdated`,
`id`, and any lock fields it carries) is ignored, so two update records
agreeing on `currentHash` produce identical store transitions. -/
theorem C10_release_frame (s : HashChainItem) (p : String)
    (u₁ u₂ : HashChainItem) (now : Nat)
    (hch : u₁.currentHash = u₂.currentHash) :
    updateAndReleaseLock s p u₁ now = updateAndReleaseLock s p u₂ now ∧
    (releaseCondition s p now = true →
      updateAndReleaseLock s p u₁ now =
        .ok ⟨s.id, u₁.currentHash, now, none, none⟩) := by
  constructor
  · simp [updateAndReleaseLock, hch]
  · intro h; simp [updateAndReleaseLock, h]

/-- C10 witness: two update records sharing only `currentHash` — one with
stale lock fields and clock, one with a different id — yield the same release
result, which stamps the store-side clock 105, not the caller's 101 or 777. -/
theorem C10_release_frame_witness :
    updateAndReleaseLock heldItem "p" updA 105 =
      updateAndReleaseLock heldItem "p" updB 105 ∧
    updateAndReleaseLock heldItem "p" updB 105 =
      .ok ⟨"HASH-CHAIN-1", "h9", 105, none, none⟩ :=
  ⟨(C10_release_frame heldItem "p" updA updB 105 rfl).1,
   (C10_release_frame heldItem "p" updB updA 105 rfl).2 (by decide)⟩

/-- The hashing loop is iteration of the digest function. -/
theorem hashRounds_eq_iterate (H : String → String) :
    ∀ (n : Nat) (s : String), hashRounds H n s = H^[n] s := by
  intro n
  induction n with
  | zero => intro s; rfl
  | succ n ih =>
    intro s
    simp only [hashRounds, ih, Function.iterate_succ_apply]

/-- The critical-section loop applies the digest `50000 * n` times in total. -/
theorem chainHashes_eq_iterate (H : String → String) :
    ∀ (n : Nat) (s : String), chainHashes H n s = H^[50000 * n] s := by
  intro n
  induction n with
  | zero => intro s; simp [chainHashes]
  | succ n ih =>
    intro s
    simp only [chainHashes, ih, generateNextHash, hashRounds_eq_iterate]
    rw [← Function.iterate_add_apply, Nat.mul_succ]

/-- C8: the chained work transform is a deterministic function of the starting
payload and the iteration count — it equals the pure iterate
`H^[50000 * N]` of the opaque digest, and any two runs from the same payload
with the same count agree. -/
theorem C8_chain_deterministic (H : String → String) (N : Nat) (P : String) :
    chainHashes H N P = H^[50000 * N] P ∧
    (∀ r₁ r₂, r₁ = chainHashes H N P → r₂ = chainHashes H N P → r₁ = r₂) :=
  ⟨chainHashes_eq_iterate H N P, fun _ _ h₁ h₂ => h₁.trans h₂.symm⟩

/-- C8 witness: concrete evaluation of the chain at iteration count zero. -/
theorem C8_chain_deterministic_witness :
    chainHashes (fun s => s ++ "x") 0 "P0" = (fun s => s ++ "x")^[50000 * 0] "P0" ∧
    chainHashes (fun s => s ++ "x") 0 "P0" = "P0" :=
  ⟨(C8_chain_deterministic (fun s => s ++ "x") 0 "P0").1, rfl⟩

/-- One store operation preserves the both-or-neither lock-field invariant. -/
theorem applyEvent_lockFieldsConsistent (s : HashChainItem) (e : Event)
    (h : lockFieldsConsistent s) : lockFieldsConsistent (applyEvent s e).1 := by
  cases e with
  | acquire p d n =>
    by_cases hc : acquireCondition s n = true
    · simp [applyEvent, acquireLockAndRead, hc, lockFieldsConsistent]
    · rw [Bool.not_eq_true] at hc
      simpa [applyEvent, acquireLockAndRead, hc] using h
  | release p u n =>
    by_cases hc : releaseCondition s p n = true
    · simp [applyEvent, updateAndReleaseLock, hc, lockFieldsConsistent]
    · rw [Bool.not_eq_true] at hc
      simpa [applyEvent, updateAndReleaseLock, hc] using h

/-- Whole traces preserve the both-or-neither lock-field invariant. -/
theorem runTrace_lockFieldsConsistent :
    ∀ (evs : List Event) (s : HashChainItem), lockFieldsConsistent s →
      lockFieldsConsistent (runTrace s evs) := by
  intro evs
  induction evs with
  | nil => intro s h; exact h
  | cons e es ih =>
    intro s h
    exact ih _ (applyEvent_lockFieldsConsistent s e h)

/-- C7: `lockTime` and `lockedBy` are present or absent together in every
reachable record state: acquire writes both in its single conditional update,
release removes both in its single conditional update, and failed conditional
updates change nothing, so the invariant is preserved by every serialized
trace of operations. -/
theorem C7_lock_fields_invariant (s0 : HashChainItem) (evs : List Event)
    (h : lockFieldsConsistent s0) :
    lockFieldsConsistent (runTrace s0 evs) ∧
    (∀ s p now D r, acquireLockAndRead s p now D = .ok r →
      r.lockTime = some (now + D) ∧ r.lockedBy = some p) ∧
    (∀ s p u now r, updateAndReleaseLock s p u now = .ok r →
      r.lockTime = none ∧ r.lockedBy = none) := by
  refine ⟨runTrace_lockFieldsConsistent evs s0 h, ?_, ?_⟩
  · intro s p now D r hr
    unfold acquireLockAndRead at hr
    split at hr
    · simp only [Except.ok.injEq] at hr
      subst hr
      exact ⟨rfl, rfl⟩
    · exact Except.noConfusion hr
  · intro s p u now r hr
    unfold updateAndReleaseLock at hr
    split at hr
    · simp only [Except.ok.injEq] at hr
      subst hr
      exact ⟨rfl, rfl⟩
    · exact Except.noConfusion hr

/-- C7 witness: the invariant holds after a concrete four-event trace from
the lock-free initial record. -/
theorem C7_lock_fields_invariant_witness :
    lockFieldsConsistent (runTrace freeItem trace6) :=
  (C7_lock_fields_invariant freeItem trace6
    (show freeItem.lockTime = none ↔ freeItem.lockedBy = none from
      ⟨fun _ => rfl, fun _ => rfl⟩)).1

/-- C1 counterexample: a run of the executor in which the first release call
fails with `LockError` (the lock was already stolen), yet the run does not
stop there — it sleeps once, issues a second acquire attempt, re-executes the
critical section a second time, and ends in success: one release failure,
two acquire attempts, two critical-section executions. -/
theorem C1_counterexample :
    extendHashChain (fun s => s) cexEnv "p" 0 2 = ⟨.ok (), 2, 1, 2, 1⟩ := by
  decide

/-- C1 amended: a release failure raises the same `LockError` as acquire
contention and the executor's catch block treats the two identically — while
`attempt < maxRetries` it backs off and reruns the whole
acquire/critical-section/release cycle, and only on attempt `maxRetries` is
the release failure rethrown as terminal. -/
theorem C1_amended_release_retried (H : String → String) (env : Env)
    (p : String) (iterations maxRetries attempt fuel : Nat)
    (hacq : acquireCondition (env.acqStateAt attempt) (env.acqTimeAt attempt) = true)
    (hrel : releaseCondition (env.relStateAt attempt) p (env.relTimeAt attempt) = false) :
    runLoopAux H env p iterations maxRetries attempt (fuel + 1) =
      if attempt < maxRetries then
        afterLostLock (runLoopAux H env p iterations maxRetries (attempt + 1) fuel)
      else ⟨.error ⟨some (env.relStateAt attempt)⟩, 1, 0, 1, 1⟩ := by
  simp only [runLoopAux, acquireLockAndRead, hacq, if_true, updateAndReleaseLock, hrel,
    Bool.false_eq_true, if_false]

/-- C1 amended witness: in the concrete environment of the counterexample,
attempt 1 acquires, loses the lock at release, and the executor proceeds to
attempt 2. -/
theorem C1_amended_release_retried_witness :
    runLoopAux (fun s => s) cexEnv "p" 0 2 1 2 =
      afterLostLock (runLoopAux (fun s => s) cexEnv "p" 0 2 2 1) := by
  have h := C1_amended_release_retried (fun s => s) cexEnv "p" 0 2 1 1
    (by decide) (by decide)
  simpa using h

/-- When every acquire attempt from `attempt` through `maxRetries` is
contended, the loop sleeps between attempts, never runs the critical section,
and rethrows the final attempt's `LockError` (which carries the contending
record observed at attempt `maxRetries`). -/
theorem runLoopAux_all_contended (H : String → String) (env : Env) (p : String)
    (iterations maxRetries : Nat) :
    ∀ (fuel attempt : Nat), attempt + fuel = maxRetries + 1 →
      attempt ≤ maxRetries →
      (∀ k, attempt ≤ k → k ≤ maxRetries →
        acquireCondition (env.acqStateAt k) (env.acqTimeAt k) = false) →
      runLoopAux H env p iterations maxRetries attempt fuel =
        ⟨.error ⟨some (env.acqStateAt maxRetries)⟩,
         maxRetries + 1 - attempt, maxRetries - attempt, 0, 0⟩ := by
  intro fuel
  induction fuel with
  | zero => intro attempt h1 h2 hall; omega
  | succ fuel ih =>
    intro attempt h1 h2 hall
    have hfail := hall attempt le_rfl h2
    simp only [runLoopAux, acquireLockAndRead, hfail, Bool.false_eq_true, if_false]
    by_cases hlt : attempt < maxRetries
    · rw [if_pos hlt,
        ih (attempt + 1) (by omega) (by omega)
          (fun k hk1 hk2 => hall k (by omega) hk2)]
      simp only [afterContention, RunResult.mk.injEq]
      refine ⟨trivial, by omega, by omega, trivial, trivial⟩
    · rw [if_neg hlt]
      have heq : attempt = maxRetries := by omega
      subst heq
      simp only [RunResult.mk.injEq]
      refine ⟨trivial, by omega, by omega, trivial, trivial⟩

/-- C5: if the acquire attempt numbered `maxRetries` is reached and fails with
contention (here: every attempt up to it was contended), the run fails
terminally; the thrown error carries the contending record (holder and
expiry) seen on the final attempt, the run has issued exactly `maxRetries`
acquire attempts, slept `maxRetries - 1` times (in particular zero backoff
sleeps when `maxRetries = 1`), and never ran the critical section. -/
theorem C5_exhaustion_terminal (H : String → String) (env : Env) (p : String)
    (iterations maxRetries : Nat) (hm : 1 ≤ maxRetries)
    (hall : ∀ k, 1 ≤ k → k ≤ maxRetries →
      acquireCondition (env.acqStateAt k) (env.acqTimeAt k) = false) :
    extendHashChain H env p iterations maxRetries =
      ⟨.error ⟨some (env.acqStateAt maxRetries)⟩,
       maxRetries, maxRetries - 1, 0, 0⟩ := by
  have h := runLoopAux_all_contended H env p iterations maxRetries maxRetries 1
    (by omega) hm (fun k hk1 hk2 => hall k hk1 hk2)
  simpa [extendHashChain] using h

/-- C5 witness: with `maxRetries = 1` and the lease held far into the future
by another process, the run fails immediately — one attempt, no backoff
sleep — and the error carries the contending record. -/
theorem C5_exhaustion_terminal_witness :
    extendHashChain (fun s => s) exhEnv "p" 3 1 =
      ⟨.error ⟨some lockedFarItem⟩, 1, 0, 0, 0⟩ :=
  C5_exhaustion_terminal (fun s => s) exhEnv "p" 3 1 le_rfl
    (fun k h1 h2 => (by decide : acquireCondition lockedFarItem 100 = false))

/-- The loop issues at most `fuel` acquire attempts. -/
theorem runLoopAux_attempts_le (H : String → String) (env : Env) (p : String)
    (iterations maxRetries : Nat) :
    ∀ (fuel attempt : Nat),
      (runLoopAux H env p iterations maxRetries attempt fuel).attempts ≤ fuel := by
  intro fuel
  induction fuel with
  | zero => intro attempt; simp [runLoopAux]
  | succ fuel ih =>
    intro attempt
    simp only [runLoopAux]
    split
    · split
      · simp
      · split
        · simp only [afterLostLock]
          have := ih (attempt + 1)
          omega
        · simp
    · split
      · simp only [afterContention]
        have := ih (attempt + 1)
        omega
      · simp

/-- C9: one executor run issues at most `maxRetries` acquire attempts — the
loop counter runs from 1 to `maxRetries` and the recursion is structurally
bounded by it, so the run always terminates, yielding either a success or a
propagated error. -/
theorem C9_bounded_attempts (H : String → String) (env : Env) (p : String)
    (iterations maxRetries : Nat) (hm : 1 ≤ maxRetries) :
    (extendHashChain H env p iterations maxRetries).attempts ≤ maxRetries ∧
    ((∃ u, (extendHashChain H env p iterations maxRetries).result = .ok u) ∨
      ∃ e, (extendHashChain H env p iterations maxRetries).result = .error e) := by
  refine ⟨runLoopAux_attempts_le H env p iterations maxRetries maxRetries 1, ?_⟩
  cases h : (extendHashChain H env p iterations maxRetries).result with
  | ok u => exact Or.inl ⟨u, rfl⟩
  | error e => exact Or.inr ⟨e, rfl⟩

/-- C9 witness: a fully contended two-attempt run issues at most two acquire
attempts. -/
theorem C9_bounded_attempts_witness :
    (extendHashChain (fun s => s) exhEnv "p" 0 2).attempts ≤ 2 :=
  (C9_bounded_attempts (fun s => s) exhEnv "p" 0 2 (by decide)).1

/-- Running a trace splits over append. -/
theorem runTrace_append (s : HashChainItem) (l₁ l₂ : List Event) :
    runTrace s (l₁ ++ l₂) = runTrace (runTrace s l₁) l₂ := by
  induction l₁ generalizing s with
  | nil => rfl
  | cons e es ih => simp [runTrace, ih]

/-- The state before event `n + 1` is the state before event `n` with event
`n` applied. -/
theorem stateAt_succ (s0 : HashChainItem) (evs : List Event) (n : Nat)
    (e : Event) (h : evs[n]? = some e) :
    stateAt s0 evs (n + 1) = (applyEvent (stateAt s0 evs n) e).1 := by
  unfold stateAt
  rw [List.take_succ, h, runTrace_append]
  rfl

/-- A successful acquire leaves its issuer as the recorded holder. -/
theorem stateAt_after_acquire (s0 : HashChainItem) (evs : List Event)
    (k : Nat) (q : String) (d t : Nat)
    (hk : evs[k]? = some (.acquire q d t)) (hs : succAt s0 evs k = true) :
    (stateAt s0 evs (k + 1)).lockedBy = some q := by
  rw [stateAt_succ s0 evs k _ hk]
  have hc : acquireCondition (stateAt s0 evs k) t = true := by
    simp only [succAt, hk] at hs
    rwa [applyEvent_acquire_snd] at hs
  simp [applyEvent, acquireLockAndRead, hc]

/-- A successful release presupposes the release predicate at its state. -/
theorem succAt_release_cond (s0 : HashChainItem) (evs : List Event)
    (j : Nat) (p : String) (u : HashChainItem) (t : Nat)
    (hj : evs[j]? = some (.release p u t)) (hs : succAt s0 evs j = true) :
    releaseCondition (stateAt s0 evs j) p t = true := by
  simp only [succAt, hj] at hs
  rwa [applyEvent_release_snd] at hs

/-- A store event issued by any other process can never make `p` the recorded
holder: a foreign acquire installs the foreign holder, a release clears the
field, and a failed conditional update changes nothing. -/
theorem applyEvent_not_holder {s : HashChainItem} {p : String} (e : Event)
    (hpid : e.processId ≠ p) (h : s.lockedBy ≠ some p) :
    ((applyEvent s e).1).lockedBy ≠ some p := by
  cases e with
  | acquire q d n =>
    by_cases hc : acquireCondition s n = true
    · simp only [applyEvent, acquireLockAndRead, hc, if_true, ne_eq,
        Option.some.injEq]
      intro hq
      exact hpid (by simpa [Event.processId] using hq)
    · rw [Bool.not_eq_true] at hc
      simpa [applyEvent, acquireLockAndRead, hc] using h
  | release q u n =>
    by_cases hc : releaseCondition s q n = true
    · simp [applyEvent, updateAndReleaseLock, hc]
    · rw [Bool.not_eq_true] at hc
      simpa [applyEvent, updateAndReleaseLock, hc] using h

/-- Over a trace segment containing no events by `p`, the record can never
come to list `p` as holder. -/
theorem not_holder_segment (s0 : HashChainItem) (evs : List Event)
    (p : String) (a : Nat) :
    ∀ b, a ≤ b → b ≤ evs.length →
      (stateAt s0 evs a).lockedBy ≠ some p →
      (∀ m e, a ≤ m → m < b → evs[m]? = some e → e.processId ≠ p) →
      (stateAt s0 evs b).lockedBy ≠ some p := by
  intro b
  induction b with
  | zero =>
    intro h1 h2 h3 h4
    have ha : a = 0 := by omega
    subst ha
    exact h3
  | succ b ih =>
    intro h1 h2 h3 h4
    by_cases hab : a = b + 1
    · subst hab
      exact h3
    · have hab2 : a ≤ b := by omega
      have hb : b < evs.length := by omega
      have he : evs[b]? = some evs[b] := List.getElem?_eq_getElem hb
      rw [stateAt_succ s0 evs b _ he]
      exact applyEvent_not_holder _ (h4 b _ hab2 (by omega) he)
        (ih hab2 (by omega) h3 (fun m e hm1 hm2 hme => h4 m e hm1 (by omega) hme))

/-- C6: mutual exclusion of successful acquire/release cycles. Given a
serialized trace with non-decreasing clock readings, a successful cycle of
holder `p` (acquire at index `i`, release at index `j`, no events by `p` in
between) and a successful cycle of a different holder `q` (acquire at `k`,
release at `l`) with `i < k`: either the half-open intervals
`[ti, tj)` and `[tk, tl)` of the two cycles do not overlap, or the first
cycle's lease `ti + Dp` had already expired before `q`'s acquire at `tk`. -/
theorem C6_mutual_exclusion (s0 : HashChainItem) (evs : List Event)
    (p q : String) (Dp Dq : Nat) (up ul : HashChainItem)
    (i j k l ti tj tk tl : Nat)
    (hpq : p ≠ q) (hij : i < j) (hik : i < k) (hkl : k < l)
    (hi : evs[i]? = some (.acquire p Dp ti)) (hsi : succAt s0 evs i = true)
    (hj : evs[j]? = some (.release p up tj)) (hsj : succAt s0 evs j = true)
    (hk : evs[k]? = some (.acquire q Dq tk)) (hsk : succAt s0 evs k = true)
    (hl : evs[l]? = some (.release q ul tl)) (hsl : succAt s0 evs l = true)
    (hbetween : ∀ m e, i < m → m < j → evs[m]? = some e → e.processId ≠ p)
    (htimes : (evs.map Event.now).Pairwise (· ≤ ·)) :
    ¬ (max ti tk < min tj tl) ∨ ti + Dp < tk := by
  left
  have hjlen : j < evs.length := (List.getElem?_eq_some_iff.mp hj).1
  have hklen : k < evs.length := (List.getElem?_eq_some_iff.mp hk).1
  have hjk : j < k := by
    by_contra hcon
    push_neg at hcon
    have hkj : k < j := by
      rcases Nat.lt_or_eq_of_le hcon with hlt | heq
      · exact hlt
      · subst heq
        rw [hj] at hk
        simp at hk
    have hq1 : (stateAt s0 evs (k + 1)).lockedBy = some q :=
      stateAt_after_acquire s0 evs k q Dq tk hk hsk
    have hq2 : (stateAt s0 evs j).lockedBy ≠ some p := by
      refine not_holder_segment s0 evs p (k + 1) j (by omega) (le_of_lt hjlen)
        ?_ ?_
      · rw [hq1]
        intro hqq
        exact hpq (Option.some.inj hqq).symm
      · intro m e hm1 hm2 hme
        exact hbetween m e (by omega) hm2 hme
    exact hq2
      (releaseCondition_spec (succAt_release_cond s0 evs j p up tj hj hsj)).1
  have htle : tj ≤ tk := by
    have h2 := List.pairwise_iff_getElem.mp htimes j k
      (by simpa using hjlen) (by simpa using hklen) hjk
    obtain ⟨_, hje⟩ := List.getElem?_eq_some_iff.mp hj
    obtain ⟨_, hke⟩ := List.getElem?_eq_some_iff.mp hk
    rw [List.getElem_map, List.getElem_map, hje, hke] at h2
    simpa [Event.now] using h2
  have hmin : min tj tl ≤ tj := Nat.min_le_left _ _
  have hmax : tk ≤ max ti tk := Nat.le_max_right _ _
  omega

/-- C6 witness: two concrete back-to-back successful cycles by distinct
holders on the same record; their intervals do not overlap. -/
theorem C6_mutual_exclusion_witness :
    succAt freeItem trace6 0 = true ∧ succAt freeItem trace6 1 = true ∧
    succAt freeItem trace6 2 = true ∧ succAt freeItem trace6 3 = true ∧
    (¬ (max 100 110 < min 110 115) ∨ 100 + 30 < 110) :=
  ⟨by decide, by decide, by decide, by decide,
   C6_mutual_exclusion freeItem trace6 "p" "q" 30 30 updA updB
     0 1 2 3 100 110 110 115
     (by decide) (by decide) (by decide) (by decide)
     (by decide) (by decide) (by decide) (by decide)
     (by decide) (by decide) (by decide) (by decide)
     (fun m e h1 h2 hme => absurd h2 (by omega))
     (by decide)⟩

end DdbLockingRead
